import Mathlib

/-!
Shallow embedding of `src/ht02_solid.py` (the book-library core: `Book`,
`Library`, `LoggedLibrary`, `LibraryManager`).  Python strings are modelled
as lists of Unicode code points (`List Nat`); the Python string operations
used by the source (`str.split()`, `str.strip()`, `str.lower()`,
`str.isdigit()`, `int(...)`) are modelled for the ASCII range, which is the
range the validation logic operates on.
-/

set_option maxRecDepth 4000

namespace HT02

/-- Python strings, as lists of Unicode code points. -/
abbrev Str := List Nat

/-- Decode a Lean string literal into the `Str` model. -/
def ofString (s : String) : Str := s.data.map Char.toNat

/-- The whitespace characters recognised by `str.split()` / `str.strip()`
(ASCII range: space, tab, newline, carriage return, vertical tab, form feed). -/
def pyIsSpace (c : Nat) : Bool :=
  decide (c = 32 ∨ c = 9 ∨ c = 10 ∨ c = 13 ∨ c = 11 ∨ c = 12)

/-- ASCII decimal digit test, as used by `str.isdigit()` and `int(...)`. -/
def pyIsDigit (c : Nat) : Bool := decide (48 ≤ c ∧ c ≤ 57)

/-- `str.lower()` on one character (ASCII range: map A-Z to a-z). -/
def pyLower (c : Nat) : Nat := if 65 ≤ c ∧ c ≤ 90 then c + 32 else c

/-- `str.lower()`. -/
def lowerStr (s : Str) : Str := s.map pyLower

/-- `str.strip()`: remove whitespace from both ends. -/
def pyStrip (s : Str) : Str :=
  ((s.dropWhile pyIsSpace).reverse.dropWhile pyIsSpace).reverse

/-- Worker for `str.split()` (no separator argument): `acc` holds the
current word, reversed. -/
def pySplitAux : Str → Str → List Str
  | [], acc => if acc.isEmpty then [] else [acc.reverse]
  | c :: rest, acc =>
    if pyIsSpace c then
      if acc.isEmpty then pySplitAux rest []
      else acc.reverse :: pySplitAux rest []
    else pySplitAux rest (c :: acc)

/-- `str.split()`: maximal nonempty runs of non-whitespace characters. -/
def pySplit (s : Str) : List Str := pySplitAux s []

/-- `" ".join(words)`. -/
def joinSpace : List Str → Str
  | [] => []
  | [w] => w
  | w :: ws => w ++ 32 :: joinSpace ws

/-- `str.isdigit()` (ASCII range): nonempty and all decimal digits. -/
def pyIsDigitStr (s : Str) : Bool := !s.isEmpty && s.all pyIsDigit

/-- Digit-run parser for `int(...)`: digits with single underscores allowed
between digits (Python's numeric-literal underscore rule). -/
def parseDigitsAux : Str → Nat → Option Nat
  | [], acc => some acc
  | 95 :: c :: rest, acc =>
    if pyIsDigit c then parseDigitsAux rest (acc * 10 + (c - 48)) else none
  | 95 :: [], _ => none
  | c :: rest, acc =>
    if pyIsDigit c then parseDigitsAux rest (acc * 10 + (c - 48)) else none

/-- Digit run: must start with a digit. -/
def parseDigits : Str → Option Nat
  | [] => none
  | c :: rest => if pyIsDigit c then parseDigitsAux rest (c - 48) else none

/-- Python `int(s)` on a string: strip whitespace, optional sign, digits
(ASCII range; raises `ValueError`, here `none`, otherwise). -/
def pyIntParse (s : Str) : Option Int :=
  match pyStrip s with
  | 43 :: rest => (parseDigits rest).map (fun n => (n : Int))
  | 45 :: rest => (parseDigits rest).map (fun n => -(n : Int))
  | t => (parseDigits t).map (fun n => (n : Int))

/-- `Book` dataclass: frozen (immutable) record with title, author, year. -/
structure Book where
  title : Str
  author : Str
  year : Int
deriving DecidableEq

/-- `MIN_YEAR = 1450` module constant. -/
def MIN_YEAR : Int := 1450

namespace Library

/-- `Library.add_book`: append to the internal list; always succeeds. -/
def add_book (book : Book) (books : List Book) : List Book := books ++ [book]

/-- `Library.remove_book`: delete the first record whose title equals the
given string exactly; return whether a match was found. -/
def remove_book (title : Str) : List Book → Bool × List Book
  | [] => (false, [])
  | b :: rest =>
    if b.title = title then (true, rest)
    else
      let r := remove_book title rest
      (r.1, b :: r.2)

/-- `Library.get_all`: return a snapshot of the internal list. -/
def get_all (books : List Book) : List Book := books

/-- `Library.find_by_title`: first record whose title equals the given
string exactly, if any. -/
def find_by_title (title : Str) : List Book → Option Book
  | [] => none
  | b :: rest => if b.title = title then some b else find_by_title title rest

end Library

/-- One `logging.info` event emitted by `LoggedLibrary`. -/
inductive LogEvent where
  | addEv (title : Str)
  | removeEv (title : Str)
  | getAllEv
  | findEv (title : Str)
deriving DecidableEq

/-- State of a `LoggedLibrary` wrapping the in-memory `Library`: the inner
book list plus the log emitted so far. -/
structure LoggedState where
  inner : List Book
  log : List LogEvent
deriving DecidableEq

namespace LoggedLibrary

/-- `LoggedLibrary.add_book`: log, then delegate. -/
def add_book (book : Book) (st : LoggedState) : LoggedState :=
  { inner := Library.add_book book st.inner
    log := st.log ++ [LogEvent.addEv book.title] }

/-- `LoggedLibrary.remove_book`: log, then delegate and return the result. -/
def remove_book (title : Str) (st : LoggedState) : Bool × LoggedState :=
  let r := Library.remove_book title st.inner
  (r.1, { inner := r.2, log := st.log ++ [LogEvent.removeEv title] })

/-- `LoggedLibrary.get_all`: log, then delegate and return the result. -/
def get_all (st : LoggedState) : List Book × LoggedState :=
  (Library.get_all st.inner, { st with log := st.log ++ [LogEvent.getAllEv] })

/-- `LoggedLibrary.find_by_title`: log, then delegate and return the result. -/
def find_by_title (title : Str) (st : LoggedState) : Option Book × LoggedState :=
  (Library.find_by_title title st.inner,
   { st with log := st.log ++ [LogEvent.findEv title] })

end LoggedLibrary

/-- The diagnostic outcomes a `LibraryManager.add_book` call can report
(each is one `logging.info` line in the source), plus `added` for success. -/
inductive AddOutcome where
  | emptyTitle
  | titleTooShort
  | titleTooLong
  | emptyAuthor
  | authorTooShort
  | authorTooLong
  | authorAllDigits
  | yearNotInteger
  | yearNegative
  | yearTooEarly
  | yearTooLate
  | duplicateBook
  | added
deriving DecidableEq

namespace LibraryManager

/-- `LibraryManager._normalize`: `" ".join(s.split())`. -/
def _normalize (s : Str) : Str := joinSpace (pySplit s)

/-- `LibraryManager._validate_title`: `none` means the title passed. -/
def _validate_title (title : Str) : Option AddOutcome :=
  if title.isEmpty ∨ (pyStrip title).isEmpty then some AddOutcome.emptyTitle
  else if (pyStrip title).length < 2 then some AddOutcome.titleTooShort
  else if title.length > 255 then some AddOutcome.titleTooLong
  else none

/-- `LibraryManager._validate_author`: `none` means the author passed. -/
def _validate_author (author : Str) : Option AddOutcome :=
  if author.isEmpty ∨ (pyStrip author).isEmpty then some AddOutcome.emptyAuthor
  else
    let a := pyStrip author
    if a.length < 2 then some AddOutcome.authorTooShort
    else if a.length > 255 then some AddOutcome.authorTooLong
    else if pyIsDigitStr a then some AddOutcome.authorAllDigits
    else none

/-- `LibraryManager._validate_year`: parse the year text, then range-check
against `MIN_YEAR` and the `CURRENT_YEAR` module constant (a parameter of
the embedding, captured once at module load). -/
def _validate_year (currentYear : Int) (year_str : Str) : Except AddOutcome Int :=
  match pyIntParse year_str with
  | none => Except.error AddOutcome.yearNotInteger
  | some y =>
    if y < 0 then Except.error AddOutcome.yearNegative
    else if y < MIN_YEAR then Except.error AddOutcome.yearTooEarly
    else if y > currentYear then Except.error AddOutcome.yearTooLate
    else Except.ok y

/-- `LibraryManager._exists`: case-insensitive (title, author) membership. -/
def _exists (title author : Str) (books : List Book) : Bool :=
  let t := lowerStr title
  let a := lowerStr author
  books.any (fun b => lowerStr b.title == t && lowerStr b.author == a)

/-- `LibraryManager.add_book`: normalize, validate title then author then
year, check uniqueness, and only then delegate to the store's add. -/
def add_book (currentYear : Int) (title author year : Str)
    (books : List Book) : AddOutcome × List Book :=
  let title := _normalize title
  let author := _normalize author
  match _validate_title title with
  | some d => (d, books)
  | none =>
    match _validate_author author with
    | some d => (d, books)
    | none =>
      match _validate_year currentYear year with
      | Except.error d => (d, books)
      | Except.ok y =>
        let all_books := Library.get_all books
        if _exists title author all_books then (AddOutcome.duplicateBook, books)
        else (AddOutcome.added,
              Library.add_book { title := title, author := author, year := y } books)

/-- `LibraryManager.remove_book`: normalize the title, delegate to the
store's remove; the Bool is rendered as "Book removed."/"Book not found.". -/
def remove_book (title : Str) (books : List Book) : Bool × List Book :=
  Library.remove_book (_normalize title) books

end LibraryManager

/-- Whole-run state: the `CURRENT_YEAR` constant captured at module load,
plus the store contents. -/
structure ManagerState where
  currentYear : Int
  books : List Book
deriving DecidableEq

/-- One CLI-level manager operation. -/
inductive Op where
  | addOp (title author year : Str)
  | removeOp (title : Str)

/-- Apply one manager operation to the run state. -/
def stepOp (st : ManagerState) : Op → ManagerState
  | Op.addOp t a y =>
    { st with books := (LibraryManager.add_book st.currentYear t a y st.books).2 }
  | Op.removeOp t =>
    { st with books := (LibraryManager.remove_book t st.books).2 }

/-- Run a sequence of manager operations. -/
def runOps (st : ManagerState) (ops : List Op) : ManagerState := ops.foldl stepOp st

/-- A record that the Manager's validation admits as stored: both fields
pass their validators and are in normalized form (as every record built by
`LibraryManager.add_book` is). -/
def ValidStoredBook (b : Book) : Prop :=
  LibraryManager._validate_title b.title = none ∧
  LibraryManager._validate_author b.author = none ∧
  LibraryManager._normalize b.title = b.title ∧
  LibraryManager._normalize b.author = b.author

instance (b : Book) : Decidable (ValidStoredBook b) := by
  unfold ValidStoredBook; infer_instance

/-- Two records collide on the business key: case-insensitively equal
(title, author). -/
def sameKey (b c : Book) : Prop :=
  lowerStr b.title = lowerStr c.title ∧ lowerStr b.author = lowerStr c.author

/-- The store invariant of claim C8: no two records share the business key. -/
def keyDistinct (st : List Book) : Prop :=
  st.Pairwise (fun b c => ¬ sameKey b c)

/-! ### Helper lemmas about the Python string model -/

theorem mem_pySplitAux (s : Str) :
    ∀ acc : Str, (∀ c ∈ acc, pyIsSpace c = false) →
      ∀ w ∈ pySplitAux s acc, w ≠ [] ∧ ∀ c ∈ w, pyIsSpace c = false := by
  induction s with
  | nil =>
    intro acc hacc w hw
    simp only [pySplitAux] at hw
    split at hw
    · simp at hw
    · rename_i hne
      simp only [List.mem_singleton] at hw
      subst hw
      refine ⟨?_, ?_⟩
      · simp only [List.isEmpty_iff] at hne
        simpa using hne
      · intro c hc
        exact hacc c (List.mem_reverse.mp hc)
  | cons c rest ih =>
    intro acc hacc w hw
    simp only [pySplitAux] at hw
    split at hw
    · split at hw
      · exact ih [] (by simp) w hw
      · rename_i hne
        rcases List.mem_cons.mp hw with h | h
        · subst h
          refine ⟨?_, ?_⟩
          · simp only [List.isEmpty_iff] at hne
            simpa using hne
          · intro x hx
            exact hacc x (List.mem_reverse.mp hx)
        · exact ih [] (by simp) w h
    · rename_i hc
      refine ih (c :: acc) ?_ w hw
      intro x hx
      rcases List.mem_cons.mp hx with h | h
      · subst h
        simpa using hc
      · exact hacc x h

theorem mem_pySplit (s w : Str) (hw : w ∈ pySplit s) :
    w ≠ [] ∧ ∀ c ∈ w, pyIsSpace c = false :=
  mem_pySplitAux s [] (by simp) w hw

theorem joinSpace_head_not_space (ws : List Str)
    (h : ∀ w ∈ ws, w ≠ [] ∧ ∀ c ∈ w, pyIsSpace c = false) :
    ∀ c, (joinSpace ws).head? = some c → pyIsSpace c = false := by
  induction ws with
  | nil => intro c hc; simp [joinSpace] at hc
  | cons w ws ih =>
    intro c hc
    cases ws with
    | nil =>
      have hw := h w (by simp)
      simp only [joinSpace] at hc
      exact hw.2 c (List.mem_of_mem_head? hc)
    | cons w2 ws2 =>
      have hw := h w (by simp)
      simp only [joinSpace] at hc
      rcases w with _ | ⟨a, w'⟩
      · exact absurd rfl hw.1
      · simp only [List.cons_append, List.head?_cons, Option.some.injEq] at hc
        subst hc
        exact hw.2 a (List.mem_cons_self a w')

theorem joinSpace_ne_nil (ws : List Str) (h0 : ws ≠ []) (h : ∀ w ∈ ws, w ≠ []) :
    joinSpace ws ≠ [] := by
  cases ws with
  | nil => exact absurd rfl h0
  | cons w ws =>
    cases ws with
    | nil => simpa [joinSpace] using h w (by simp)
    | cons w2 ws2 =>
      simp only [joinSpace]
      rcases w with _ | ⟨a, w'⟩
      · exact absurd rfl (h _ (by simp))
      · simp

theorem joinSpace_getLast_not_space (ws : List Str)
    (h : ∀ w ∈ ws, w ≠ [] ∧ ∀ c ∈ w, pyIsSpace c = false) :
    ∀ c, (joinSpace ws).getLast? = some c → pyIsSpace c = false := by
  induction ws with
  | nil => intro c hc; simp [joinSpace] at hc
  | cons w ws ih =>
    intro c hc
    cases ws with
    | nil =>
      have hw := h w (by simp)
      simp only [joinSpace] at hc
      exact hw.2 c (List.mem_of_mem_getLast? hc)
    | cons w2 ws2 =>
      simp only [joinSpace] at hc
      rw [List.getLast?_append_of_ne_nil _ (by simp)] at hc
      have hne : joinSpace (w2 :: ws2) ≠ [] :=
        joinSpace_ne_nil _ (by simp) (fun w' hw' => (h w' (List.mem_cons_of_mem _ hw')).1)
      have hc2 : (joinSpace (w2 :: ws2)).getLast? = some c := by
        cases hj : joinSpace (w2 :: ws2) with
        | nil => exact absurd hj hne
        | cons d ds =>
          rw [hj] at hc
          rw [List.getLast?_cons_cons] at hc
          exact hc
      exact ih (fun w' hw' => h w' (List.mem_cons_of_mem _ hw')) c hc2

theorem dropWhile_eq_self_of_head (p : Nat → Bool) (l : Str)
    (h : ∀ c, l.head? = some c → p c = false) : l.dropWhile p = l := by
  cases l with
  | nil => rfl
  | cons a l => simp [List.dropWhile_cons, h a rfl]

theorem pyStrip_eq_self (l : Str)
    (h1 : ∀ c, l.head? = some c → pyIsSpace c = false)
    (h2 : ∀ c, l.getLast? = some c → pyIsSpace c = false) : pyStrip l = l := by
  unfold pyStrip
  rw [dropWhile_eq_self_of_head _ _ h1]
  rw [dropWhile_eq_self_of_head _ _ (by
    intro c hc
    rw [List.head?_reverse] at hc
    exact h2 c hc)]
  exact List.reverse_reverse l

/-- Normalized strings carry no leading or trailing whitespace, so
`str.strip()` leaves them unchanged. -/
theorem pyStrip_normalize (s : Str) :
    pyStrip (LibraryManager._normalize s) = LibraryManager._normalize s := by
  unfold LibraryManager._normalize
  exact pyStrip_eq_self _
    (joinSpace_head_not_space _ (fun w hw => mem_pySplit s w hw))
    (joinSpace_getLast_not_space _ (fun w hw => mem_pySplit s w hw))

/-! ### Case-insensitive comparison transfer lemmas -/

theorem pyLower_digit_eq (c d : Nat) (h : pyLower c = pyLower d) :
    pyIsDigit c = pyIsDigit d := by
  simp only [pyIsDigit, decide_eq_decide]
  unfold pyLower at h
  split at h <;> split at h <;> omega

theorem lowerStr_length_eq (x y : Str) (h : lowerStr x = lowerStr y) :
    x.length = y.length := by
  have h2 := congrArg List.length h
  simpa [lowerStr] using h2

theorem lowerStr_all_digit (x : Str) :
    ∀ y : Str, lowerStr x = lowerStr y → x.all pyIsDigit = y.all pyIsDigit := by
  induction x with
  | nil =>
    intro y h
    cases y with
    | nil => rfl
    | cons b ys => simp [lowerStr] at h
  | cons a xs ih =>
    intro y h
    cases y with
    | nil => simp [lowerStr] at h
    | cons b ys =>
      simp only [lowerStr, List.map_cons, List.cons.injEq] at h
      simp only [List.all_cons]
      rw [pyLower_digit_eq a b h.1, ih ys h.2]

theorem lowerStr_pyIsDigitStr (x y : Str) (h : lowerStr x = lowerStr y) :
    pyIsDigitStr x = pyIsDigitStr y := by
  have h1 := lowerStr_all_digit x y h
  have h2 := lowerStr_length_eq x y h
  unfold pyIsDigitStr
  rw [h1]
  cases x <;> cases y <;> simp_all

/-! ### Outcome ranges of the three validators -/

theorem validate_title_outcomes (t : Str) (d : AddOutcome)
    (h : LibraryManager._validate_title t = some d) :
    d = AddOutcome.emptyTitle ∨ d = AddOutcome.titleTooShort ∨
    d = AddOutcome.titleTooLong := by
  simp only [LibraryManager._validate_title] at h
  split_ifs at h <;> simp_all

theorem validate_author_outcomes (a : Str) (d : AddOutcome)
    (h : LibraryManager._validate_author a = some d) :
    d = AddOutcome.emptyAuthor ∨ d = AddOutcome.authorTooShort ∨
    d = AddOutcome.authorTooLong ∨ d = AddOutcome.authorAllDigits := by
  simp only [LibraryManager._validate_author] at h
  split_ifs at h <;> simp_all

theorem validate_year_outcomes (cy : Int) (y : Str) (d : AddOutcome)
    (h : LibraryManager._validate_year cy y = Except.error d) :
    d = AddOutcome.yearNotInteger ∨ d = AddOutcome.yearNegative ∨
    d = AddOutcome.yearTooEarly ∨ d = AddOutcome.yearTooLate := by
  simp only [LibraryManager._validate_year] at h
  rcases hp : pyIntParse y with _ | v
  · rw [hp] at h
    simp_all
  · simp only [hp] at h
    split_ifs at h <;> simp_all

/-! ### Branch lemmas for `LibraryManager.add_book` -/

theorem add_book_title_fail (cy : Int) (t a y : Str) (st : List Book)
    (d : AddOutcome)
    (hT : LibraryManager._validate_title (LibraryManager._normalize t) = some d) :
    LibraryManager.add_book cy t a y st = (d, st) := by
  simp only [LibraryManager.add_book, hT]

theorem add_book_author_fail (cy : Int) (t a y : Str) (st : List Book)
    (d : AddOutcome)
    (hT : LibraryManager._validate_title (LibraryManager._normalize t) = none)
    (hA : LibraryManager._validate_author (LibraryManager._normalize a) = some d) :
    LibraryManager.add_book cy t a y st = (d, st) := by
  simp only [LibraryManager.add_book, hT, hA]

theorem add_book_year_fail (cy : Int) (t a y : Str) (st : List Book)
    (d : AddOutcome)
    (hT : LibraryManager._validate_title (LibraryManager._normalize t) = none)
    (hA : LibraryManager._validate_author (LibraryManager._normalize a) = none)
    (hY : LibraryManager._validate_year cy y = Except.error d) :
    LibraryManager.add_book cy t a y st = (d, st) := by
  simp only [LibraryManager.add_book, hT, hA, hY]

theorem add_book_dup (cy : Int) (t a y : Str) (st : List Book) (yv : Int)
    (hT : LibraryManager._validate_title (LibraryManager._normalize t) = none)
    (hA : LibraryManager._validate_author (LibraryManager._normalize a) = none)
    (hY : LibraryManager._validate_year cy y = Except.ok yv)
    (hE : LibraryManager._exists (LibraryManager._normalize t)
            (LibraryManager._normalize a) st = true) :
    LibraryManager.add_book cy t a y st = (AddOutcome.duplicateBook, st) := by
  simp only [LibraryManager.add_book, hT, hA, hY, Library.get_all, hE, if_true]

theorem add_book_ok (cy : Int) (t a y : Str) (st : List Book) (yv : Int)
    (hT : LibraryManager._validate_title (LibraryManager._normalize t) = none)
    (hA : LibraryManager._validate_author (LibraryManager._normalize a) = none)
    (hY : LibraryManager._validate_year cy y = Except.ok yv)
    (hE : LibraryManager._exists (LibraryManager._normalize t)
            (LibraryManager._normalize a) st = false) :
    LibraryManager.add_book cy t a y st =
      (AddOutcome.added,
       st ++ [{ title := LibraryManager._normalize t
                author := LibraryManager._normalize a
                year := yv }]) := by
  simp only [LibraryManager.add_book, hT, hA, hY, Library.get_all, hE,
    Bool.false_eq_true, if_false, Library.add_book]

/-! ### Length-based characterizations of the field validators on
already-stripped strings -/

theorem validate_title_char (t : Str) (h : pyStrip t = t) :
    LibraryManager._validate_title t =
      (if t.length = 0 then some AddOutcome.emptyTitle
       else if t.length < 2 then some AddOutcome.titleTooShort
       else if t.length > 255 then some AddOutcome.titleTooLong
       else none) := by
  simp only [LibraryManager._validate_title, h, or_self]
  by_cases h0 : t.length = 0
  · have hnil : t = [] := List.length_eq_zero.mp h0
    subst hnil
    simp
  · have hne : t ≠ [] := fun hh => h0 (by simp [hh])
    rw [if_neg h0, if_neg (by simpa [List.isEmpty_iff] using hne)]

theorem validate_author_char (a : Str) (h : pyStrip a = a) :
    LibraryManager._validate_author a =
      (if a.length = 0 then some AddOutcome.emptyAuthor
       else if a.length < 2 then some AddOutcome.authorTooShort
       else if a.length > 255 then some AddOutcome.authorTooLong
       else if pyIsDigitStr a then some AddOutcome.authorAllDigits
       else none) := by
  simp only [LibraryManager._validate_author, h, or_self]
  by_cases h0 : a.length = 0
  · have hnil : a = [] := List.length_eq_zero.mp h0
    subst hnil
    simp
  · have hne : a ≠ [] := fun hh => h0 (by simp [hh])
    rw [if_neg h0, if_neg (by simpa [List.isEmpty_iff] using hne)]

/-- Any input whose normalized title is case-insensitively equal to the
title of an admitted record passes title validation itself. -/
theorem validate_title_transfer (t : Str) (b : Book) (hAdm : ValidStoredBook b)
    (ht : lowerStr (LibraryManager._normalize t) = lowerStr b.title) :
    LibraryManager._validate_title (LibraryManager._normalize t) = none := by
  obtain ⟨hT, _, hnt, _⟩ := hAdm
  have hlen := lowerStr_length_eq _ _ ht
  have hsn := pyStrip_normalize t
  have hsb : pyStrip b.title = b.title := by rw [← hnt, pyStrip_normalize]
  rw [validate_title_char _ hsb] at hT
  rw [validate_title_char _ hsn, hlen]
  exact hT

/-- Any input whose normalized author is case-insensitively equal to the
author of an admitted record passes author validation itself. -/
theorem validate_author_transfer (a : Str) (b : Book) (hAdm : ValidStoredBook b)
    (ha : lowerStr (LibraryManager._normalize a) = lowerStr b.author) :
    LibraryManager._validate_author (LibraryManager._normalize a) = none := by
  obtain ⟨_, hA, _, hna⟩ := hAdm
  have hlen := lowerStr_length_eq _ _ ha
  have hdig := lowerStr_pyIsDigitStr _ _ ha
  have hsn := pyStrip_normalize a
  have hsb : pyStrip b.author = b.author := by rw [← hna, pyStrip_normalize]
  rw [validate_author_char _ hsb] at hA
  rw [validate_author_char _ hsn, hlen, hdig]
  exact hA

/-- Every run of `LibraryManager.add_book` either reports a non-success
outcome and leaves the store untouched, or appends exactly the normalized
record after a negative uniqueness check. -/
theorem add_book_cases (cy : Int) (t a y : Str) (st : List Book) :
    ((LibraryManager.add_book cy t a y st).1 ≠ AddOutcome.added ∧
     (LibraryManager.add_book cy t a y st).2 = st) ∨
    (∃ yv : Int,
      LibraryManager._exists (LibraryManager._normalize t)
        (LibraryManager._normalize a) st = false ∧
      LibraryManager.add_book cy t a y st =
        (AddOutcome.added,
         st ++ [{ title := LibraryManager._normalize t
                  author := LibraryManager._normalize a
                  year := yv }])) := by
  rcases hT : LibraryManager._validate_title (LibraryManager._normalize t) with _ | d
  · rcases hA : LibraryManager._validate_author (LibraryManager._normalize a) with _ | d
    · rcases hY : LibraryManager._validate_year cy y with d | yv
      · left
        rw [add_book_year_fail cy t a y st d hT hA hY]
        rcases validate_year_outcomes cy y d hY with h | h | h | h <;> simp [h]
      · cases hE : LibraryManager._exists (LibraryManager._normalize t)
            (LibraryManager._normalize a) st
        · right
          exact ⟨yv, rfl, add_book_ok cy t a y st yv hT hA hY hE⟩
        · left
          rw [add_book_dup cy t a y st yv hT hA hY hE]
          simp
    · left
      rw [add_book_author_fail cy t a y st d hT hA]
      rcases validate_author_outcomes _ d hA with h | h | h | h <;> simp [h]
  · left
    rw [add_book_title_fail cy t a y st d hT]
    rcases validate_title_outcomes _ d hT with h | h | h <;> simp [h]

/-! ### Store-level helper lemmas -/

theorem remove_book_snd_sublist (t : Str) (st : List Book) :
    (Library.remove_book t st).2.Sublist st := by
  induction st with
  | nil => simp [Library.remove_book]
  | cons b rest ih =>
    simp only [Library.remove_book]
    split
    · exact List.sublist_cons_self b rest
    · exact List.Sublist.cons₂ b ih

/-! ### Normalization is idempotent -/

theorem pySplitAux_no_space (w : Str) :
    ∀ acc : Str, (∀ c ∈ w, pyIsSpace c = false) →
      pySplitAux w acc =
        if (acc.reverse ++ w).isEmpty then [] else [acc.reverse ++ w] := by
  induction w with
  | nil => intro acc h; simp [pySplitAux]
  | cons c w ih =>
    intro acc h
    have hc : pyIsSpace c = false := h c (by simp)
    simp only [pySplitAux]
    rw [if_neg (by simp [hc])]
    rw [ih (c :: acc) (fun x hx => h x (by simp [hx]))]
    simp

theorem pySplitAux_word_sep (rest : Str) (w : Str) :
    ∀ acc : Str, (∀ c ∈ w, pyIsSpace c = false) → acc.reverse ++ w ≠ [] →
      pySplitAux (w ++ 32 :: rest) acc =
        (acc.reverse ++ w) :: pySplitAux rest [] := by
  induction w with
  | nil =>
    intro acc h hne
    simp only [List.nil_append, pySplitAux]
    rw [if_pos (by decide)]
    rw [if_neg (by
      simp only [List.append_nil] at hne
      simp only [List.isEmpty_iff]
      intro hacc
      exact hne (by simp [hacc]))]
    simp
  | cons c w ih =>
    intro acc h hne
    have hc : pyIsSpace c = false := h c (by simp)
    simp only [List.cons_append, pySplitAux]
    rw [if_neg (by simp [hc])]
    simp only [List.append_eq]
    rw [ih (c :: acc) (fun x hx => h x (by simp [hx])) (by simp)]
    simp

theorem pySplit_joinSpace (ws : List Str)
    (h : ∀ w ∈ ws, w ≠ [] ∧ ∀ c ∈ w, pyIsSpace c = false) :
    pySplit (joinSpace ws) = ws := by
  induction ws with
  | nil => rfl
  | cons w ws ih =>
    cases ws with
    | nil =>
      have hw := h w (by simp)
      simp only [joinSpace, pySplit]
      rw [pySplitAux_no_space w [] hw.2]
      simp [List.isEmpty_iff, hw.1]
    | cons w2 ws2 =>
      have hw := h w (by simp)
      simp only [joinSpace, pySplit]
      rw [pySplitAux_word_sep (joinSpace (w2 :: ws2)) w [] hw.2 (by simpa using hw.1)]
      simp only [List.reverse_nil, List.nil_append, List.cons.injEq, true_and]
      exact ih (fun w' hw' => h w' (List.mem_cons_of_mem _ hw'))

theorem normalize_idem (s : Str) :
    LibraryManager._normalize (LibraryManager._normalize s) =
      LibraryManager._normalize s := by
  unfold LibraryManager._normalize
  rw [pySplit_joinSpace (pySplit s) (fun w hw => mem_pySplit s w hw)]

/-- Every record appended by a successful `LibraryManager.add_book` is an
admitted record: validated fields in normalized form. -/
theorem add_book_new_book_valid (cy : Int) (t a y : Str) (st : List Book)
    (h : (LibraryManager.add_book cy t a y st).1 = AddOutcome.added) :
    ∃ yv : Int,
      (LibraryManager.add_book cy t a y st).2 =
        st ++ [{ title := LibraryManager._normalize t
                 author := LibraryManager._normalize a
                 year := yv }] ∧
      ValidStoredBook
        { title := LibraryManager._normalize t
          author := LibraryManager._normalize a
          year := yv } := by
  rcases hT : LibraryManager._validate_title (LibraryManager._normalize t) with _ | d
  · rcases hA : LibraryManager._validate_author (LibraryManager._normalize a) with _ | d
    · rcases hY : LibraryManager._validate_year cy y with d | yv
      · rw [add_book_year_fail cy t a y st d hT hA hY] at h
        rcases validate_year_outcomes cy y d hY with h' | h' | h' | h' <;> simp [h'] at h
      · cases hE : LibraryManager._exists (LibraryManager._normalize t)
            (LibraryManager._normalize a) st
        · refine ⟨yv, ?_, hT, hA, normalize_idem t, normalize_idem a⟩
          rw [add_book_ok cy t a y st yv hT hA hY hE]
        · rw [add_book_dup cy t a y st yv hT hA hY hE] at h
          simp at h
    · rw [add_book_author_fail cy t a y st d hT hA] at h
      rcases validate_author_outcomes _ d hA with h' | h' | h' | h' <;> simp [h'] at h
  · rw [add_book_title_fail cy t a y st d hT] at h
    rcases validate_title_outcomes _ d hT with h' | h' | h' <;> simp [h'] at h

/-! ### Run-level invariant helpers -/

theorem stepOp_keyDistinct (st : ManagerState) (op : Op)
    (h : keyDistinct st.books) : keyDistinct (stepOp st op).books := by
  cases op with
  | removeOp t =>
    simp only [stepOp, LibraryManager.remove_book]
    exact List.Pairwise.sublist (remove_book_snd_sublist _ _) h
  | addOp t a y =>
    simp only [stepOp]
    rcases add_book_cases st.currentYear t a y st.books with ⟨_, heq⟩ | ⟨yv, hex, heq⟩
    · rw [heq]
      exact h
    · rw [heq]
      simp only [keyDistinct, List.pairwise_append, List.pairwise_cons,
        List.Pairwise.nil, List.mem_singleton]
      refine ⟨h, by simp, ?_⟩
      intro b hb bk hbk
      subst hbk
      intro hk
      simp only [LibraryManager._exists] at hex
      have hmem : st.books.any (fun b' =>
          lowerStr b'.title == lowerStr (LibraryManager._normalize t) &&
          lowerStr b'.author == lowerStr (LibraryManager._normalize a)) = true := by
        refine List.any_eq_true.mpr ⟨b, hb, ?_⟩
        have h1 := hk.1
        have h2 := hk.2
        simp only [sameKey] at hk
        simp [hk.1, hk.2]
      rw [hmem] at hex
      exact absurd hex (by simp)

theorem runOps_keyDistinct_aux (ops : List Op) :
    ∀ st : ManagerState, keyDistinct st.books → keyDistinct (runOps st ops).books := by
  induction ops with
  | nil => intro st h; exact h
  | cons op ops ih =>
    intro st h
    simp only [runOps, List.foldl_cons]
    exact ih (stepOp st op) (stepOp_keyDistinct st op h)

theorem stepOp_currentYear (st : ManagerState) (op : Op) :
    (stepOp st op).currentYear = st.currentYear := by
  cases op <;> rfl

theorem runOps_currentYear (ops : List Op) :
    ∀ st : ManagerState, (runOps st ops).currentYear = st.currentYear := by
  induction ops with
  | nil => intro st; rfl
  | cons op ops ih =>
    intro st
    simp only [runOps, List.foldl_cons]
    exact (ih (stepOp st op)).trans (stepOp_currentYear st op)

/-- Failures reported by `add_book` are uniquely attributable: a title
diagnostic is reported exactly when the title validator produces it. -/
theorem add_book_fst_title (cy : Int) (t a y : Str) (st : List Book)
    (d : AddOutcome)
    (hd : d = AddOutcome.emptyTitle ∨ d = AddOutcome.titleTooShort ∨
      d = AddOutcome.titleTooLong) :
    (LibraryManager.add_book cy t a y st).1 = d ↔
      LibraryManager._validate_title (LibraryManager._normalize t) = some d := by
  constructor
  · intro h
    rcases hT : LibraryManager._validate_title (LibraryManager._normalize t) with _ | d'
    · exfalso
      rcases hA : LibraryManager._validate_author (LibraryManager._normalize a) with _ | d'
      · rcases hY : LibraryManager._validate_year cy y with d' | yv
        · rw [add_book_year_fail cy t a y st d' hT hA hY] at h
          rcases validate_year_outcomes cy y d' hY with h' | h' | h' | h' <;>
            rcases hd with hd | hd | hd <;> simp_all
        · cases hE : LibraryManager._exists (LibraryManager._normalize t)
              (LibraryManager._normalize a) st
          · rw [add_book_ok cy t a y st yv hT hA hY hE] at h
            rcases hd with hd | hd | hd <;> simp_all
          · rw [add_book_dup cy t a y st yv hT hA hY hE] at h
            rcases hd with hd | hd | hd <;> simp_all
      · rw [add_book_author_fail cy t a y st d' hT hA] at h
        rcases validate_author_outcomes _ d' hA with h' | h' | h' | h' <;>
          rcases hd with hd | hd | hd <;> simp_all
    · rw [add_book_title_fail cy t a y st d' hT] at h
      have hd' : d' = d := h
      subst hd'
      rfl
  · intro hT
    rw [add_book_title_fail cy t a y st d hT]

/-- Failures reported by `add_book` are uniquely attributable: an author
diagnostic is reported exactly when the title validator passes and the
author validator produces it. -/
theorem add_book_fst_author (cy : Int) (t a y : Str) (st : List Book)
    (d : AddOutcome)
    (hd : d = AddOutcome.emptyAuthor ∨ d = AddOutcome.authorTooShort ∨
      d = AddOutcome.authorTooLong ∨ d = AddOutcome.authorAllDigits) :
    (LibraryManager.add_book cy t a y st).1 = d ↔
      LibraryManager._validate_title (LibraryManager._normalize t) = none ∧
      LibraryManager._validate_author (LibraryManager._normalize a) = some d := by
  constructor
  · intro h
    rcases hT : LibraryManager._validate_title (LibraryManager._normalize t) with _ | d'
    · rcases hA : LibraryManager._validate_author (LibraryManager._normalize a) with _ | d'
      · exfalso
        rcases hY : LibraryManager._validate_year cy y with d' | yv
        · rw [add_book_year_fail cy t a y st d' hT hA hY] at h
          rcases validate_year_outcomes cy y d' hY with h' | h' | h' | h' <;>
            rcases hd with hd | hd | hd | hd <;> simp_all
        · cases hE : LibraryManager._exists (LibraryManager._normalize t)
              (LibraryManager._normalize a) st
          · rw [add_book_ok cy t a y st yv hT hA hY hE] at h
            rcases hd with hd | hd | hd | hd <;> simp_all
          · rw [add_book_dup cy t a y st yv hT hA hY hE] at h
            rcases hd with hd | hd | hd | hd <;> simp_all
      · rw [add_book_author_fail cy t a y st d' hT hA] at h
        have hd' : d' = d := h
        subst hd'
        exact ⟨rfl, rfl⟩
    · exfalso
      rw [add_book_title_fail cy t a y st d' hT] at h
      rcases validate_title_outcomes _ d' hT with h' | h' | h' <;>
        rcases hd with hd | hd | hd | hd <;> simp_all
  · intro hh
    rw [add_book_author_fail cy t a y st d hh.1 hh.2]

/-- The author min-length rejection fires exactly on normalized authors of
length one (the normalized author is already stripped). -/
theorem validate_author_tooShort_iff (a : Str) :
    LibraryManager._validate_author (LibraryManager._normalize a) =
        some AddOutcome.authorTooShort ↔
      (LibraryManager._normalize a).length = 1 := by
  rw [validate_author_char _ (pyStrip_normalize a)]
  split_ifs <;> simp <;> omega

/-- The author max-length rejection fires exactly on normalized authors
longer than 255 characters. -/
theorem validate_author_tooLong_iff (a : Str) :
    LibraryManager._validate_author (LibraryManager._normalize a) =
        some AddOutcome.authorTooLong ↔
      (LibraryManager._normalize a).length > 255 := by
  rw [validate_author_char _ (pyStrip_normalize a)]
  split_ifs <;> simp <;> omega

/-! ### Claim theorems -/

/-- C1: `LibraryManager.add_book` runs its validation stages in the order
title, author, year, uniqueness; the first failing stage determines the
single reported diagnostic (later stages are skipped and report nothing),
and the store's add runs — changing the store — only when every stage
passes. -/
theorem addBook_stage_order (cy : Int) (t a y : Str) (st : List Book) :
    (∀ d, LibraryManager._validate_title (LibraryManager._normalize t) = some d →
      LibraryManager.add_book cy t a y st = (d, st)) ∧
    (LibraryManager._validate_title (LibraryManager._normalize t) = none →
      ∀ d, LibraryManager._validate_author (LibraryManager._normalize a) = some d →
        LibraryManager.add_book cy t a y st = (d, st)) ∧
    (LibraryManager._validate_title (LibraryManager._normalize t) = none →
      LibraryManager._validate_author (LibraryManager._normalize a) = none →
        ∀ d, LibraryManager._validate_year cy y = Except.error d →
          LibraryManager.add_book cy t a y st = (d, st)) ∧
    (LibraryManager._validate_title (LibraryManager._normalize t) = none →
      LibraryManager._validate_author (LibraryManager._normalize a) = none →
        ∀ yv : Int, LibraryManager._validate_year cy y = Except.ok yv →
          (LibraryManager._exists (LibraryManager._normalize t)
              (LibraryManager._normalize a) st = true →
            LibraryManager.add_book cy t a y st = (AddOutcome.duplicateBook, st)) ∧
          (LibraryManager._exists (LibraryManager._normalize t)
              (LibraryManager._normalize a) st = false →
            LibraryManager.add_book cy t a y st =
              (AddOutcome.added,
               st ++ [{ title := LibraryManager._normalize t
                        author := LibraryManager._normalize a
                        year := yv }]))) ∧
    ((LibraryManager.add_book cy t a y st).1 ≠ AddOutcome.added →
      (LibraryManager.add_book cy t a y st).2 = st) := by
  refine ⟨?_, ?_, ?_, ?_, ?_⟩
  · intro d hd
    exact add_book_title_fail cy t a y st d hd
  · intro hT d hd
    exact add_book_author_fail cy t a y st d hT hd
  · intro hT hA d hd
    exact add_book_year_fail cy t a y st d hT hA hd
  · intro hT hA yv hY
    exact ⟨fun hE => add_book_dup cy t a y st yv hT hA hY hE,
           fun hE => add_book_ok cy t a y st yv hT hA hY hE⟩
  · intro hne
    rcases add_book_cases cy t a y st with ⟨_, heq⟩ | ⟨yv, _, heq⟩
    · exact heq
    · exfalso
      rw [heq] at hne
      exact hne rfl

/-- Witness for C1: the single-character title "A" short-circuits the whole
pipeline even though the author ("12345") and the year text ("abc") would
fail their own checks. -/
theorem addBook_stage_order_witness :
    LibraryManager.add_book 2025 (ofString ("A")) (ofString ("12345"))
      (ofString ("abc")) [] = (AddOutcome.titleTooShort, []) :=
  (addBook_stage_order 2025 (ofString ("A")) (ofString ("12345"))
    (ofString ("abc")) []).1 AddOutcome.titleTooShort (by decide)

/-- C2 counterexample: a record admitted by the manager, then a second add
with the identical title and author but the unparseable year text "abc":
the call fails with `yearNotInteger`, not `duplicateBook`, because year
validation runs before the uniqueness check.  The claim's "regardless of
the year value" is therefore false as stated. -/
theorem addBook_dup_invalid_year_cex :
    (LibraryManager.add_book 2025 (ofString ("Dune")) (ofString ("Frank Herbert"))
        (ofString ("1965")) []).2 =
      [{ title := ofString ("Dune"), author := ofString ("Frank Herbert"), year := 1965 }] ∧
    (LibraryManager.add_book 2025 (ofString ("Dune")) (ofString ("Frank Herbert"))
        (ofString ("abc"))
        [{ title := ofString ("Dune"), author := ofString ("Frank Herbert"), year := 1965 }]).1 =
      AddOutcome.yearNotInteger ∧
    AddOutcome.yearNotInteger ≠ AddOutcome.duplicateBook := by decide

/-- C2 (amended): for every admitted record in the store, a second add
whose normalized title and author match that record case-insensitively —
any casing — and whose year text passes year validation fails with
`duplicateBook` and leaves the store unchanged. -/
theorem addBook_duplicate_caseInsensitive (cy : Int) (t a y : Str)
    (st : List Book) (b : Book) (hb : b ∈ st) (hAdm : ValidStoredBook b)
    (ht : lowerStr (LibraryManager._normalize t) = lowerStr b.title)
    (ha : lowerStr (LibraryManager._normalize a) = lowerStr b.author)
    (hy : ∃ yv : Int, LibraryManager._validate_year cy y = Except.ok yv) :
    LibraryManager.add_book cy t a y st = (AddOutcome.duplicateBook, st) := by
  obtain ⟨yv, hy⟩ := hy
  have hT := validate_title_transfer t b hAdm ht
  have hA := validate_author_transfer a b hAdm ha
  have hE : LibraryManager._exists (LibraryManager._normalize t)
      (LibraryManager._normalize a) st = true := by
    simp only [LibraryManager._exists, List.any_eq_true]
    exact ⟨b, hb, by simp [← ht, ← ha]⟩
  exact add_book_dup cy t a y st yv hT hA hy hE

/-- Witness for the amended C2: "DUNE" / "frank HERBERT" with a different,
valid year collides with the stored "Dune" / "Frank Herbert". -/
theorem addBook_duplicate_caseInsensitive_witness :
    LibraryManager.add_book 2025 (ofString ("DUNE")) (ofString ("frank HERBERT"))
        (ofString ("2000"))
        [{ title := ofString ("Dune"), author := ofString ("Frank Herbert"), year := 1965 }] =
      (AddOutcome.duplicateBook,
       [{ title := ofString ("Dune"), author := ofString ("Frank Herbert"), year := 1965 }]) :=
  addBook_duplicate_caseInsensitive 2025 (ofString ("DUNE")) (ofString ("frank HERBERT"))
    (ofString ("2000"))
    [{ title := ofString ("Dune"), author := ofString ("Frank Herbert"), year := 1965 }]
    { title := ofString ("Dune"), author := ofString ("Frank Herbert"), year := 1965 }
    (by decide) (by decide) (by decide) (by decide) ⟨2000, by rfl⟩

/-- C3 counterexample: a raw title of length 256 (over the 255 maximum)
whose normalized form is just "aa" is accepted and stored, so the
max-length check is not applied to the original un-trimmed caller input. -/
theorem titleMax_raw_length_cex :
    (ofString ("aa") ++ List.replicate 254 32).length = 256 ∧
    (ofString ("Good Author") ++ List.replicate 254 32).length = 265 ∧
    LibraryManager.add_book 2025 (ofString ("aa") ++ List.replicate 254 32)
        (ofString ("Good Author") ++ List.replicate 254 32) (ofString ("2000")) [] =
      (AddOutcome.added,
       [{ title := ofString ("aa"), author := ofString ("Good Author"), year := 2000 }]) := by
  decide

/-- C3 (amended): in the Manager's add the min- and max-length checks on
both the title and the author are applied to the whitespace-normalized
field (`add_book` normalizes both before validating; the normalized string
is already trimmed, so its trimmed and "un-trimmed" forms coincide); the
caller's original un-trimmed input is never measured. -/
theorem addBook_title_checks_normalized (cy : Int) (t a y : Str) (st : List Book) :
    ((LibraryManager.add_book cy t a y st).1 = AddOutcome.titleTooShort ↔
      (LibraryManager._normalize t).length = 1) ∧
    ((LibraryManager.add_book cy t a y st).1 = AddOutcome.titleTooLong ↔
      (LibraryManager._normalize t).length > 255) ∧
    ((LibraryManager.add_book cy t a y st).1 = AddOutcome.authorTooShort ↔
      LibraryManager._validate_title (LibraryManager._normalize t) = none ∧
      (LibraryManager._normalize a).length = 1) ∧
    ((LibraryManager.add_book cy t a y st).1 = AddOutcome.authorTooLong ↔
      LibraryManager._validate_title (LibraryManager._normalize t) = none ∧
      (LibraryManager._normalize a).length > 255) := by
  have hchar := validate_title_char _ (pyStrip_normalize t)
  refine ⟨?_, ?_, ?_, ?_⟩
  · rw [add_book_fst_title cy t a y st AddOutcome.titleTooShort (by simp)]
    rw [hchar]
    split_ifs <;> simp <;> omega
  · rw [add_book_fst_title cy t a y st AddOutcome.titleTooLong (by simp)]
    rw [hchar]
    split_ifs <;> simp <;> omega
  · rw [add_book_fst_author cy t a y st AddOutcome.authorTooShort (by simp)]
    rw [validate_author_tooShort_iff a]
  · rw [add_book_fst_author cy t a y st AddOutcome.authorTooLong (by simp)]
    rw [validate_author_tooLong_iff a]

/-- C4: the store's find and remove match titles exactly (case-sensitively),
while the manager add's uniqueness check is case-insensitive; a query
differing from a stored title only in case is not found and not removed,
yet the same title re-add is rejected as a duplicate. -/
theorem store_exact_vs_manager_caseInsensitive :
    (∀ (st : List Book) (q : Str) (b : Book),
      Library.find_by_title q st = some b → b ∈ st ∧ b.title = q) ∧
    (∀ (st : List Book) (q : Str),
      Library.find_by_title q st = none ↔ ∀ b ∈ st, b.title ≠ q) ∧
    (∀ (st : List Book) (q : Str),
      (Library.remove_book q st).1 = false ↔ ∀ b ∈ st, b.title ≠ q) ∧
    (Library.find_by_title (ofString ("dune"))
        [{ title := ofString ("Dune"), author := ofString ("Frank Herbert"), year := 1965 }] = none ∧
     (Library.remove_book (ofString ("dune"))
        [{ title := ofString ("Dune"), author := ofString ("Frank Herbert"), year := 1965 }]).1 = false ∧
     (LibraryManager.add_book 2025 (ofString ("dune")) (ofString ("frank herbert"))
        (ofString ("1965"))
        [{ title := ofString ("Dune"), author := ofString ("Frank Herbert"), year := 1965 }]).1 =
       AddOutcome.duplicateBook) := by
  refine ⟨?_, ?_, ?_, by decide⟩
  · intro st q b
    induction st with
    | nil => intro h; simp [Library.find_by_title] at h
    | cons c rest ih =>
      intro h
      simp only [Library.find_by_title] at h
      by_cases hc : c.title = q
      · rw [if_pos hc] at h
        obtain rfl : c = b := by simpa using h
        exact ⟨by simp, hc⟩
      · rw [if_neg hc] at h
        obtain ⟨hmem, ht⟩ := ih h
        exact ⟨by simp [hmem], ht⟩
  · intro st q
    induction st with
    | nil => simp [Library.find_by_title]
    | cons c rest ih =>
      simp only [Library.find_by_title]
      by_cases hc : c.title = q
      · rw [if_pos hc]
        simp [hc]
      · rw [if_neg hc]
        rw [ih]
        simp [hc]
  · intro st q
    induction st with
    | nil => simp [Library.remove_book]
    | cons c rest ih =>
      simp only [Library.remove_book]
      by_cases hc : c.title = q
      · rw [if_pos hc]
        simp [hc]
      · rw [if_neg hc]
        show (Library.remove_book q rest).1 = false ↔ _
        rw [ih]
        simp [hc]

/-- Witness for C4: applying the exactness direction at a concrete store. -/
theorem store_exact_vs_manager_caseInsensitive_witness :
    ({ title := ofString ("Dune"), author := ofString ("Frank Herbert"), year := 1965 } : Book) ∈
      [{ title := ofString ("Dune"), author := ofString ("Frank Herbert"), year := 1965 }] ∧
    ({ title := ofString ("Dune"), author := ofString ("Frank Herbert"), year := 1965 } : Book).title =
      ofString ("Dune") :=
  store_exact_vs_manager_caseInsensitive.1
    [{ title := ofString ("Dune"), author := ofString ("Frank Herbert"), year := 1965 }]
    (ofString ("Dune"))
    { title := ofString ("Dune"), author := ofString ("Frank Herbert"), year := 1965 }
    (by decide)

/-- C5: year validation reports `yearNotInteger` on unparseable text,
`yearNegative` on parsed values below zero, `yearTooEarly` on values in
[0, 1450), `yearTooLate` on values above the current year, and accepts
exactly the inclusive range [1450, current year]; each failure yields one
diagnostic. -/
theorem validate_year_diagnostics (cy : Int) (hcy : MIN_YEAR ≤ cy) (s : Str) :
    MIN_YEAR = 1450 ∧
    (pyIntParse s = none →
      LibraryManager._validate_year cy s = Except.error AddOutcome.yearNotInteger) ∧
    (∀ v : Int, pyIntParse s = some v →
      (v < 0 →
        LibraryManager._validate_year cy s = Except.error AddOutcome.yearNegative) ∧
      (0 ≤ v → v < 1450 →
        LibraryManager._validate_year cy s = Except.error AddOutcome.yearTooEarly) ∧
      (cy < v →
        LibraryManager._validate_year cy s = Except.error AddOutcome.yearTooLate) ∧
      (1450 ≤ v → v ≤ cy →
        LibraryManager._validate_year cy s = Except.ok v)) := by
  have hcy' : (1450 : Int) ≤ cy := hcy
  refine ⟨rfl, ?_, ?_⟩
  · intro hp
    simp [LibraryManager._validate_year, hp]
  · intro v hp
    refine ⟨fun h1 => ?_, fun h1 h2 => ?_, fun h1 => ?_, fun h1 h2 => ?_⟩ <;>
      simp only [LibraryManager._validate_year, hp, MIN_YEAR] <;>
      split_ifs <;> first | rfl | (exfalso; omega)

/-- Witness for C5: one concrete input for each diagnostic and a pass. -/
theorem validate_year_diagnostics_witness :
    LibraryManager._validate_year 2025 (ofString ("abc")) =
      Except.error AddOutcome.yearNotInteger ∧
    LibraryManager._validate_year 2025 (ofString ("-5")) =
      Except.error AddOutcome.yearNegative ∧
    LibraryManager._validate_year 2025 (ofString ("1400")) =
      Except.error AddOutcome.yearTooEarly ∧
    LibraryManager._validate_year 2025 (ofString ("9999")) =
      Except.error AddOutcome.yearTooLate ∧
    LibraryManager._validate_year 2025 (ofString ("1965")) = Except.ok 1965 :=
  ⟨(validate_year_diagnostics 2025 (by decide) (ofString ("abc"))).2.1 (by decide),
   ((validate_year_diagnostics 2025 (by decide) (ofString ("-5"))).2.2 (-5)
      (by decide)).1 (by decide),
   (((validate_year_diagnostics 2025 (by decide) (ofString ("1400"))).2.2 1400
      (by decide)).2.1 (by decide) (by decide)),
   ((((validate_year_diagnostics 2025 (by decide) (ofString ("9999"))).2.2 9999
      (by decide)).2.2).1 (by decide)),
   ((((validate_year_diagnostics 2025 (by decide) (ofString ("1965"))).2.2 1965
      (by decide)).2.2).2 (by decide) (by decide))⟩

/-- C6: `Library.remove_book` on an absent title returns not-found with the
store untouched; on a present title it returns found, shrinks the list by
exactly one, and deletes precisely the first match in insertion order,
keeping every other record and their relative order. -/
theorem remove_book_first_match (title : Str) (st : List Book) :
    ((∀ b ∈ st, b.title ≠ title) → Library.remove_book title st = (false, st)) ∧
    ((∃ b ∈ st, b.title = title) →
      (Library.remove_book title st).1 = true ∧
      (Library.remove_book title st).2.length + 1 = st.length) ∧
    (∀ (pre post : List Book) (b : Book),
      st = pre ++ b :: post → b.title = title → (∀ c ∈ pre, c.title ≠ title) →
      Library.remove_book title st = (true, pre ++ post)) := by
  refine ⟨?_, ?_, ?_⟩
  · induction st with
    | nil => intro h; rfl
    | cons c rest ih =>
      intro h
      simp only [Library.remove_book]
      rw [if_neg (h c (by simp))]
      have hr := ih (fun b hb => h b (by simp [hb]))
      simp [hr]
  · induction st with
    | nil => intro h; simp at h
    | cons c rest ih =>
      intro h
      simp only [Library.remove_book]
      by_cases hc : c.title = title
      · rw [if_pos hc]
        simp
      · rw [if_neg hc]
        obtain ⟨b, hb, hbt⟩ := h
        have hb' : b ∈ rest := by
          rcases List.mem_cons.mp hb with h' | h'
          · exact absurd hbt (h' ▸ hc)
          · exact h'
        have hr := ih ⟨b, hb', hbt⟩
        have hr2 := hr.2
        refine ⟨hr.1, ?_⟩
        simp only [List.length_cons]
        omega
  · intro pre post b hst hb hpre
    subst hst
    revert hpre
    induction pre with
    | nil =>
      intro hpre
      simp only [List.nil_append, Library.remove_book]
      rw [if_pos hb]
    | cons c pre ih =>
      intro hpre
      simp only [List.cons_append, Library.remove_book]
      rw [if_neg (hpre c (by simp))]
      simp only [List.append_eq]
      rw [ih (fun x hx => hpre x (by simp [hx]))]

/-- Witness for C6: with two records sharing the title, remove deletes only
the first one in insertion order. -/
theorem remove_book_first_match_witness :
    Library.remove_book (ofString ("Dune"))
        [{ title := ofString ("AA"), author := ofString ("X1"), year := 2000 },
         { title := ofString ("Dune"), author := ofString ("A1"), year := 1965 },
         { title := ofString ("Dune"), author := ofString ("B2"), year := 1970 }] =
      (true,
       [{ title := ofString ("AA"), author := ofString ("X1"), year := 2000 },
        { title := ofString ("Dune"), author := ofString ("B2"), year := 1970 }]) :=
  (remove_book_first_match (ofString ("Dune"))
      [{ title := ofString ("AA"), author := ofString ("X1"), year := 2000 },
       { title := ofString ("Dune"), author := ofString ("A1"), year := 1965 },
       { title := ofString ("Dune"), author := ofString ("B2"), year := 1970 }]).2.2
    [{ title := ofString ("AA"), author := ofString ("X1"), year := 2000 }]
    [{ title := ofString ("Dune"), author := ofString ("B2"), year := 1970 }]
    { title := ofString ("Dune"), author := ofString ("A1"), year := 1965 }
    rfl (by decide) (by decide)

/-- C7: the logging decorator returns exactly the results of the plain
store and leaves the same inner store state for all four operations; it
differs only in the emitted log. -/
theorem logged_library_refines_plain (b : Book) (t q : Str) (st : LoggedState) :
    (LoggedLibrary.add_book b st).inner = Library.add_book b st.inner ∧
    (LoggedLibrary.remove_book t st).1 = (Library.remove_book t st.inner).1 ∧
    ((LoggedLibrary.remove_book t st).2).inner = (Library.remove_book t st.inner).2 ∧
    (LoggedLibrary.get_all st).1 = Library.get_all st.inner ∧
    ((LoggedLibrary.get_all st).2).inner = st.inner ∧
    (LoggedLibrary.find_by_title q st).1 = Library.find_by_title q st.inner ∧
    ((LoggedLibrary.find_by_title q st).2).inner = st.inner :=
  ⟨rfl, rfl, rfl, rfl, rfl, rfl, rfl⟩

/-- C8: starting from the empty store, any sequence of manager add and
remove operations keeps the store free of two records with the same
case-insensitive (title, author) key. -/
theorem manager_run_key_unique (cy : Int) (ops : List Op) :
    keyDistinct (runOps { currentYear := cy, books := [] } ops).books :=
  runOps_keyDistinct_aux ops { currentYear := cy, books := [] } List.Pairwise.nil

/-- C9: the all-digits rejection applies only to the author field: an
all-digit normalized title meeting the length constraints passes title
validation (while the same string as an author would be rejected), and the
add succeeds when the author, year and uniqueness checks pass. -/
theorem all_digit_title_accepted (cy : Int) (t a y : Str) (st : List Book)
    (hdig : pyIsDigitStr (LibraryManager._normalize t) = true)
    (hmin : 2 ≤ (LibraryManager._normalize t).length)
    (hmax : (LibraryManager._normalize t).length ≤ 255)
    (hA : LibraryManager._validate_author (LibraryManager._normalize a) = none)
    (hY : ∃ yv : Int, LibraryManager._validate_year cy y = Except.ok yv)
    (hU : LibraryManager._exists (LibraryManager._normalize t)
        (LibraryManager._normalize a) st = false) :
    LibraryManager._validate_title (LibraryManager._normalize t) = none ∧
    LibraryManager._validate_author (LibraryManager._normalize t) =
      some AddOutcome.authorAllDigits ∧
    (LibraryManager.add_book cy t a y st).1 = AddOutcome.added := by
  obtain ⟨yv, hY⟩ := hY
  have hT : LibraryManager._validate_title (LibraryManager._normalize t) = none := by
    rw [validate_title_char _ (pyStrip_normalize t)]
    split_ifs <;> first | rfl | (exfalso; omega)
  refine ⟨hT, ?_, ?_⟩
  · rw [validate_author_char _ (pyStrip_normalize t)]
    split_ifs <;> first | rfl | (exfalso; omega)
  · rw [add_book_ok cy t a y st yv hT hA hY hU]

/-- Witness for C9: the title "1984" is accepted and the add succeeds. -/
theorem all_digit_title_accepted_witness :
    LibraryManager._validate_title (LibraryManager._normalize (ofString ("1984"))) = none ∧
    LibraryManager._validate_author (LibraryManager._normalize (ofString ("1984"))) =
      some AddOutcome.authorAllDigits ∧
    (LibraryManager.add_book 2025 (ofString ("1984")) (ofString ("George Orwell"))
      (ofString ("1949")) []).1 = AddOutcome.added :=
  all_digit_title_accepted 2025 (ofString ("1984")) (ofString ("George Orwell"))
    (ofString ("1949")) [] (by decide) (by decide) (by decide) (by decide)
    ⟨1949, by rfl⟩ (by decide)

/-- C10: the year-validation upper bound is the `CURRENT_YEAR` constant of
the run state, captured once at module load: no manager operation changes
it, so every pair of calls within one run validates against the identical
threshold. -/
theorem current_year_threshold_constant (st0 : ManagerState)
    (ops1 ops2 : List Op) (s : Str) :
    (runOps st0 ops1).currentYear = st0.currentYear ∧
    LibraryManager._validate_year (runOps st0 ops1).currentYear s =
      LibraryManager._validate_year (runOps st0 ops2).currentYear s := by
  refine ⟨runOps_currentYear ops1 st0, ?_⟩
  rw [runOps_currentYear ops1 st0, runOps_currentYear ops2 st0]

end HT02
